import Mathlib

/-!
Shallow embedding of the AMOLED image converter core
(src/src/amoled_image.rs) together with the fragment of the UI shell
(src/src/main.rs) that the export path uses.

Pixels are 4-channel BGRA bytes; channels are modelled as `Nat` (the Rust
code only reads and compares `u8` channels, never does arithmetic on them,
so no wrap-around modelling is needed; where a property depends on channels
being bytes, a `≤ 255` hypothesis states it).  Pixel buffers are `List Bgra`
in row-major order, mirroring `ImageBuffer<Bgra<u8>, Vec<u8>>`.
External collaborators (the `image` crate codec) are abstracted as record
fields holding their results.
-/

namespace Amoled

/-- One BGRA pixel: `x[0] = b`, `x[1] = g`, `x[2] = r`, `x[3] = a`
(`::image::Bgra<u8>`). -/
structure Bgra where
  b : Nat
  g : Nat
  r : Nat
  a : Nat
deriving DecidableEq, Repr

/-- All four channels of a pixel fit in a byte. -/
def Bgra.isByte (x : Bgra) : Prop :=
  x.b ≤ 255 ∧ x.g ≤ 255 ∧ x.r ≤ 255 ∧ x.a ≤ 255

instance (x : Bgra) : Decidable x.isByte := by
  unfold Bgra.isByte; infer_instance

/-- `struct PixelInfo { pixels: usize, black_pixels: usize }` from
amoled_image.rs. -/
structure PixelInfo where
  pixels : Nat
  black_pixels : Nat
deriving DecidableEq, Repr

/-- A decoded BGRA8 pixel buffer with its dimensions
(`ImageBuffer<Bgra<u8>, Vec<u8>>`). -/
structure BgraImage where
  width : Nat
  height : Nat
  pixels : List Bgra
deriving DecidableEq, Repr

/-- The codec collaborator's decoded image (`image::DynamicImage`),
abstracted by its observable outputs: the BGRA8 conversion of the full
image, and for each requested bounding size the BGRA8 conversion of the
downscaled thumbnail. -/
structure DynamicImage where
  to_bgra8 : BgraImage
  thumbnail : Nat → Nat → BgraImage

/-- `std::io::Error`, abstracted. -/
structure IoError where
  code : Nat
deriving DecidableEq, Repr

/-- `image::ImageError`, abstracted. -/
structure ImgError where
  code : Nat
deriving DecidableEq, Repr

/-- `pub enum AmoledConversionError` from amoled_image.rs: an `io::Error`
maps into `DecodeError` and an `image::ImageError` into `ImageError`
(the two `From` impls). -/
inductive AmoledConversionError where
  | DecodeError (e : IoError)
  | ImageError (e : ImgError)
deriving DecidableEq, Repr

/-- `image::io::Reader` after `open` succeeded, abstracted by the outcome
of its `decode()` call. -/
structure ImageReader where
  decode : Except ImgError DynamicImage

def THUMBNAIL_MAX_WIDTH : Nat := 1024

def THUMBNAIL_MIN_WIDTH : Nat := 256

def THUMBNAIL_MAX_HEIGHT : Nat := 1024

def THUMBNAIL_MIN_HEIGHT : Nat := 256

/-- The state of `AmoledImageConverter` (amoled_image.rs, lines 67-80).
The UI-only fields (`first_image_viewer`, `second_image_viewer`,
`image_handle`) carry no pixel data derived state and are omitted. -/
structure AmoledImageConverter where
  width : Nat
  height : Nat
  image : BgraImage
  converted_image : BgraImage
  thumbnail : BgraImage
  converted_thumbnail : BgraImage
  black_point : Nat
  converted_image_black_pixel_percentage : Nat
deriving DecidableEq, Repr

namespace AmoledImageConverter

/-- `fn clamp(x: u32, min: u32, max: u32) -> u32` (amoled_image.rs,
lines 158-166). -/
def clamp (x min max : Nat) : Nat :=
  if x > max then max
  else if x < min then min
  else x

/-- `fn generate_black_image(image, black_point) -> PixelInfo`
(amoled_image.rs, lines 181-215).  The loop walks every pixel once:
`pixel_count` is bumped each iteration; the three channel checks
short-circuit in the order b, g, r; a pixel passing all three bumps
`black_pixel_count` and, unless it is already exactly (0,0,0), is
overwritten with `Bgra([0, 0, 0, x[3]])`.  The in-place mutation is
rendered as returning the transformed buffer alongside the counts. -/
def generate_black_image : List Bgra → Nat → List Bgra × PixelInfo
  | [], _ => ([], { pixels := 0, black_pixels := 0 })
  | x :: rest, black_point =>
    let res := generate_black_image rest black_point
    if x.b > black_point then
      (x :: res.1, { pixels := res.2.pixels + 1, black_pixels := res.2.black_pixels })
    else if x.g > black_point then
      (x :: res.1, { pixels := res.2.pixels + 1, black_pixels := res.2.black_pixels })
    else if x.r > black_point then
      (x :: res.1, { pixels := res.2.pixels + 1, black_pixels := res.2.black_pixels })
    else
      let x2 := if x.r ≠ 0 ∨ x.g ≠ 0 ∨ x.b ≠ 0 then Bgra.mk 0 0 0 x.a else x
      (x2 :: res.1, { pixels := res.2.pixels + 1, black_pixels := res.2.black_pixels + 1 })

/-- `fn calc_black_pixel_percentage(black_pixel_count, pixel_count)`
(amoled_image.rs, lines 132-134): `black_pixel_count * 100 / pixel_count`
in truncating `usize` division. -/
def calc_black_pixel_percentage (black_pixel_count pixel_count : Nat) : Nat :=
  black_pixel_count * 100 / pixel_count

/-- The width bound `new` requests from the codec thumbnailer:
`clamp(bgra8_image.width() / 2, THUMBNAIL_MIN_WIDTH, THUMBNAIL_MAX_WIDTH)`
(amoled_image.rs, lines 92-96). -/
def thumbnail_target_width (w : Nat) : Nat :=
  clamp (w / 2) THUMBNAIL_MIN_WIDTH THUMBNAIL_MAX_WIDTH

/-- The height bound `new` requests from the codec thumbnailer
(amoled_image.rs, lines 97-101). -/
def thumbnail_target_height (h : Nat) : Nat :=
  clamp (h / 2) THUMBNAIL_MIN_HEIGHT THUMBNAIL_MAX_HEIGHT

/-- The converter record built by `pub fn new(image, black_point)`
(amoled_image.rs, lines 88-130).  The thumbnail pass's `PixelInfo` is
discarded (line 106); the stored percentage comes from `converted_info`,
the full-image pass (lines 109-110 and 122-126).  `new` wraps this record
in `Ok` (line 111); the fallible wrapper is `new` below. -/
def init (image : DynamicImage) (black_point : Nat) : AmoledImageConverter :=
  let bgra8_image := image.to_bgra8
  let thumbnail := image.thumbnail
    (thumbnail_target_width bgra8_image.width)
    (thumbnail_target_height bgra8_image.height)
  let thumbnail_pass := generate_black_image thumbnail.pixels black_point
  let converted_pass := generate_black_image bgra8_image.pixels black_point
  { width := bgra8_image.width
    height := bgra8_image.height
    image := bgra8_image
    converted_image := { bgra8_image with pixels := converted_pass.1 }
    thumbnail := thumbnail
    converted_thumbnail := { thumbnail with pixels := thumbnail_pass.1 }
    black_point := black_point
    converted_image_black_pixel_percentage :=
      calc_black_pixel_percentage converted_pass.2.black_pixels converted_pass.2.pixels }

/-- `pub fn new(image: DynamicImage, black_point: u8) -> Result<...>`:
the body never errors and returns `Ok` of the record above. -/
def new (image : DynamicImage) (black_point : Nat) :
    Except AmoledConversionError AmoledImageConverter :=
  Except.ok (init image black_point)

/-- `pub fn from_path(path, black_point)` (amoled_image.rs, lines 83-86):
`ImageReader::open(path)?` lifts an `io::Error` through
`From<io::Error>` into `DecodeError`; `.decode()?` lifts an `ImageError`
through `From<ImageError>` into `ImageError`; on success it delegates to
`new`.  The filesystem open is abstracted by its outcome `open_result`. -/
def from_path (open_result : Except IoError ImageReader) (black_point : Nat) :
    Except AmoledConversionError AmoledImageConverter :=
  match open_result with
  | Except.error e => Except.error (AmoledConversionError.DecodeError e)
  | Except.ok reader =>
    match reader.decode with
    | Except.error e => Except.error (AmoledConversionError.ImageError e)
    | Except.ok decoded_image => new decoded_image black_point

/-- `pub fn set_black_point(&mut self, black_point: u8)` (amoled_image.rs,
lines 144-156): stores the new black point, re-clones `thumbnail` into
`converted_thumbnail` and re-runs the pass on it, stores the percentage
from that pass's counts, then re-clones `image` into `converted_image`
and re-runs the pass on it (that pass's counts are discarded). -/
def set_black_point (self : AmoledImageConverter) (black_point : Nat) :
    AmoledImageConverter :=
  let thumbnail_pass := generate_black_image self.thumbnail.pixels black_point
  let image_pass := generate_black_image self.image.pixels black_point
  { self with
    black_point := black_point
    converted_thumbnail := { self.thumbnail with pixels := thumbnail_pass.1 }
    converted_image_black_pixel_percentage :=
      calc_black_pixel_percentage thumbnail_pass.2.black_pixels thumbnail_pass.2.pixels
    converted_image := { self.image with pixels := image_pass.1 } }

/-- The raw byte sequence of a BGRA buffer (`ImageBuffer::as_raw` for
`Bgra<u8>`): each pixel contributes its bytes in (b, g, r, a) order. -/
def bgra_raw (buf : List Bgra) : List Nat :=
  buf.flatMap (fun x => [x.b, x.g, x.r, x.a])

/-- Modelled from the spec: `as_rgba_image` is called by the save handler
in main.rs (line 117) but its definition is not under src/.  Per the
spec's Export section it exposes the full-resolution `converted` buffer
reformatted to standard (red, green, blue, alpha) byte order,
independent of the internal (blue, green, red, alpha) working order. -/
def as_rgba_image (self : AmoledImageConverter) : List Nat :=
  self.converted_image.pixels.flatMap (fun x => [x.r, x.g, x.b, x.a])

/-- Modelled from the spec: the codec collaborator derives the thumbnail
by downscaling to the per-axis targets
`clamp(sourceDimension / 2, 256, 1024)` independently per axis, so the
thumbnail's dimensions are the two targets `new` computes. -/
def spec_thumbnail_dims (src_width src_height : Nat) : Nat × Nat :=
  (thumbnail_target_width src_width, thumbnail_target_height src_height)

end AmoledImageConverter

open AmoledImageConverter

/-- Spec-side pointwise description of the thresholding pass: a pixel
whose blue, green and red channels are all at most the black point
becomes pure black with its alpha kept; any other pixel is untouched. -/
def threshold_pixel (black_point : Nat) (x : Bgra) : Bgra :=
  if x.b ≤ black_point ∧ x.g ≤ black_point ∧ x.r ≤ black_point then
    Bgra.mk 0 0 0 x.a
  else x

/-- Spec-side classification of a pixel as "black" at a given black point. -/
def is_black_at (black_point : Nat) (x : Bgra) : Bool :=
  decide (x.b ≤ black_point) && decide (x.g ≤ black_point) && decide (x.r ≤ black_point)

theorem generate_black_image_fst (buf : List Bgra) (black_point : Nat) :
    (generate_black_image buf black_point).1 = buf.map (threshold_pixel black_point) := by
  induction buf with
  | nil => rfl
  | cons x rest ih =>
    obtain ⟨b, g, r, a⟩ := x
    simp only [generate_black_image, List.map_cons, threshold_pixel]
    split_ifs <;> simp_all <;> omega

theorem generate_black_image_pixels (buf : List Bgra) (black_point : Nat) :
    (generate_black_image buf black_point).2.pixels = buf.length := by
  induction buf with
  | nil => rfl
  | cons x rest ih =>
    simp only [generate_black_image, List.length_cons]
    split_ifs <;> simp_all

theorem generate_black_image_black_pixels (buf : List Bgra) (black_point : Nat) :
    (generate_black_image buf black_point).2.black_pixels =
      buf.countP (is_black_at black_point) := by
  induction buf with
  | nil => rfl
  | cons x rest ih =>
    simp only [generate_black_image, List.countP_cons, is_black_at]
    split_ifs <;> simp_all <;> omega

theorem threshold_pixel_idem (black_point : Nat) (x : Bgra) :
    threshold_pixel black_point (threshold_pixel black_point x) =
      threshold_pixel black_point x := by
  obtain ⟨b, g, r, a⟩ := x
  by_cases h : b ≤ black_point ∧ g ≤ black_point ∧ r ≤ black_point
  · have h0 : threshold_pixel black_point (Bgra.mk b g r a) = Bgra.mk 0 0 0 a := by
      simp only [threshold_pixel]
      rw [if_pos h]
    rw [h0]
    simp [threshold_pixel]
  · have h0 : threshold_pixel black_point (Bgra.mk b g r a) = Bgra.mk b g r a := by
      simp only [threshold_pixel]
      rw [if_neg h]
    rw [h0, h0]

theorem is_black_at_threshold_pixel (black_point : Nat) (x : Bgra) :
    is_black_at black_point (threshold_pixel black_point x) = is_black_at black_point x := by
  obtain ⟨b, g, r, a⟩ := x
  by_cases h : b ≤ black_point ∧ g ≤ black_point ∧ r ≤ black_point
  · have h0 : threshold_pixel black_point (Bgra.mk b g r a) = Bgra.mk 0 0 0 a := by
      simp only [threshold_pixel]
      rw [if_pos h]
    obtain ⟨h1, h2, h3⟩ := h
    rw [h0]
    simp [is_black_at, h1, h2, h3]
  · have h0 : threshold_pixel black_point (Bgra.mk b g r a) = Bgra.mk b g r a := by
      simp only [threshold_pixel]
      rw [if_neg h]
    rw [h0]

theorem prod_pixelinfo_ext (p q : List Bgra × PixelInfo) (h1 : p.1 = q.1)
    (h2 : p.2.pixels = q.2.pixels) (h3 : p.2.black_pixels = q.2.black_pixels) : p = q := by
  obtain ⟨l1, i1⟩ := p
  obtain ⟨l2, i2⟩ := q
  cases i1
  cases i2
  simp_all

/-- C1: after the thresholding pass, every pixel whose blue, green and red
channels are all at most the threshold has (blue, green, red) = (0, 0, 0)
with its alpha byte unchanged, and every pixel with at least one channel
above the threshold is bit-identical to its pre-pass value. -/
theorem threshold_pass_pointwise (buf : List Bgra) (t : Nat) :
    (generate_black_image buf t).1 =
      buf.map (fun x =>
        if x.b ≤ t ∧ x.g ≤ t ∧ x.r ≤ t then Bgra.mk 0 0 0 x.a else x) :=
  generate_black_image_fst buf t

/-- C4: the thresholding pass is idempotent: running it a second time with
the same threshold returns the buffer unchanged together with the same
pixel and black-pixel counts. -/
theorem threshold_pass_idempotent (buf : List Bgra) (t : Nat) :
    generate_black_image (generate_black_image buf t).1 t = generate_black_image buf t := by
  refine prod_pixelinfo_ext _ _ ?_ ?_ ?_
  · simp only [generate_black_image_fst, List.map_map]
    have h : threshold_pixel t ∘ threshold_pixel t = threshold_pixel t :=
      funext (threshold_pixel_idem t)
    rw [h]
  · simp only [generate_black_image_pixels, generate_black_image_fst, List.length_map]
  · simp only [generate_black_image_black_pixels, generate_black_image_fst, List.countP_map]
    have h : is_black_at t ∘ threshold_pixel t = is_black_at t :=
      funext (is_black_at_threshold_pixel t)
    rw [h]

/-- C10: the black-pixel count of the thresholding pass is monotone in the
threshold: every pixel classified black at t is classified black at any
larger threshold. -/
theorem black_count_monotone (buf : List Bgra) (t t2 : Nat) (h : t ≤ t2) :
    (generate_black_image buf t).2.black_pixels ≤
      (generate_black_image buf t2).2.black_pixels := by
  rw [generate_black_image_black_pixels, generate_black_image_black_pixels]
  refine List.countP_mono_left ?_
  intro x _ hx
  simp only [is_black_at, Bool.and_eq_true, decide_eq_true_eq] at hx ⊢
  omega

/-- Witness for C10 at a concrete buffer and threshold pair. -/
theorem black_count_monotone_witness :
    2 ≤ 5 ∧
      (generate_black_image [Bgra.mk 3 3 3 9] 2).2.black_pixels ≤
        (generate_black_image [Bgra.mk 3 3 3 9] 5).2.black_pixels :=
  ⟨by decide, black_count_monotone [Bgra.mk 3 3 3 9] 2 5 (by decide)⟩

/-- C3: `calc_black_pixel_percentage` is the truncating integer division
floor(black * 100 / total) (stated via the rational floor); for a
non-empty buffer the percentage of a thresholding pass is at most 100
(it is a `Nat`, so at least 0); it is exactly 100 at threshold 255 when
the channels are bytes; and it is exactly 0 at threshold 0 when the
buffer has no pure-black pixel. -/
theorem percentage_props (buf : List Bgra) (t : Nat) (hne : buf ≠ []) :
    (∀ black_count total_count : Nat, 0 < total_count →
        calc_black_pixel_percentage black_count total_count =
          Nat.floor (((black_count * 100 : ℕ) : ℚ) / (total_count : ℚ)))
    ∧ calc_black_pixel_percentage (generate_black_image buf t).2.black_pixels
        (generate_black_image buf t).2.pixels ≤ 100
    ∧ ((∀ x ∈ buf, x.isByte) →
        calc_black_pixel_percentage (generate_black_image buf 255).2.black_pixels
          (generate_black_image buf 255).2.pixels = 100)
    ∧ ((∀ x ∈ buf, ¬(x.b = 0 ∧ x.g = 0 ∧ x.r = 0)) →
        calc_black_pixel_percentage (generate_black_image buf 0).2.black_pixels
          (generate_black_image buf 0).2.pixels = 0) := by
  have hlen : 0 < buf.length := List.length_pos.mpr hne
  refine ⟨?_, ?_, ?_, ?_⟩
  · intro black_count total_count htc
    unfold calc_black_pixel_percentage
    rw [Nat.floor_div_nat (((black_count * 100 : ℕ) : ℚ)) total_count, Nat.floor_natCast]
  · rw [generate_black_image_black_pixels, generate_black_image_pixels]
    unfold calc_black_pixel_percentage
    have hle : buf.countP (is_black_at t) ≤ buf.length := List.countP_le_length _
    calc buf.countP (is_black_at t) * 100 / buf.length
        ≤ buf.length * 100 / buf.length :=
          Nat.div_le_div_right (Nat.mul_le_mul_right 100 hle)
      _ = 100 := Nat.mul_div_cancel_left 100 hlen
  · intro hbyte
    rw [generate_black_image_black_pixels, generate_black_image_pixels]
    have hall : buf.countP (is_black_at 255) = buf.length := by
      rw [List.countP_eq_length]
      intro x hx
      obtain ⟨hb, hg, hr, _⟩ := hbyte x hx
      simp [is_black_at, hb, hg, hr]
    rw [hall]
    unfold calc_black_pixel_percentage
    exact Nat.mul_div_cancel_left 100 hlen
  · intro hnb
    rw [generate_black_image_black_pixels, generate_black_image_pixels]
    have h0 : buf.countP (is_black_at 0) = 0 := by
      rw [List.countP_eq_zero]
      intro x hx
      have hx2 := hnb x hx
      simp only [is_black_at, Bool.and_eq_true, decide_eq_true_eq]
      omega
    rw [h0]
    unfold calc_black_pixel_percentage
    simp

/-- Witness for C3 at the one-pixel all-white buffer and threshold 0. -/
theorem percentage_props_witness :
    ([Bgra.mk 255 255 255 255] ≠ ([] : List Bgra)) ∧
      ((∀ black_count total_count : Nat, 0 < total_count →
          calc_black_pixel_percentage black_count total_count =
            Nat.floor (((black_count * 100 : ℕ) : ℚ) / (total_count : ℚ)))
      ∧ calc_black_pixel_percentage
          (generate_black_image [Bgra.mk 255 255 255 255] 0).2.black_pixels
          (generate_black_image [Bgra.mk 255 255 255 255] 0).2.pixels ≤ 100
      ∧ ((∀ x ∈ [Bgra.mk 255 255 255 255], x.isByte) →
          calc_black_pixel_percentage
            (generate_black_image [Bgra.mk 255 255 255 255] 255).2.black_pixels
            (generate_black_image [Bgra.mk 255 255 255 255] 255).2.pixels = 100)
      ∧ ((∀ x ∈ [Bgra.mk 255 255 255 255], ¬(x.b = 0 ∧ x.g = 0 ∧ x.r = 0)) →
          calc_black_pixel_percentage
            (generate_black_image [Bgra.mk 255 255 255 255] 0).2.black_pixels
            (generate_black_image [Bgra.mk 255 255 255 255] 0).2.pixels = 0)) :=
  ⟨by decide, percentage_props [Bgra.mk 255 255 255 255] 0 (by decide)⟩

/-- A decoded image whose full buffer is a single white pixel while the
codec's downscaled thumbnail is a single pure-black pixel, so the
full-image and thumbnail thresholding passes disagree on the black-pixel
ratio. -/
def full_white_thumb_black : DynamicImage where
  to_bgra8 := { width := 1, height := 1, pixels := [Bgra.mk 255 255 255 255] }
  thumbnail := fun _ _ => { width := 1, height := 1, pixels := [Bgra.mk 0 0 0 255] }

/-- C2 counterexample: at black point 0 the converter built by `new` stores
percentage 0, the full-image pass figure, while the thumbnail pass over its
thumbnail yields 100, so construction does not take the stored percentage
from the thumbnail pass. -/
theorem construction_percentage_from_full_image :
    (AmoledImageConverter.init full_white_thumb_black 0).converted_image_black_pixel_percentage
        = 0
    ∧ calc_black_pixel_percentage
        (generate_black_image
          (AmoledImageConverter.init full_white_thumb_black 0).thumbnail.pixels 0).2.black_pixels
        (generate_black_image
          (AmoledImageConverter.init full_white_thumb_black 0).thumbnail.pixels 0).2.pixels
        = 100
    ∧ (AmoledImageConverter.init full_white_thumb_black 0).converted_image_black_pixel_percentage
        ≠ calc_black_pixel_percentage
          (generate_black_image
            (AmoledImageConverter.init full_white_thumb_black 0).thumbnail.pixels 0).2.black_pixels
          (generate_black_image
            (AmoledImageConverter.init full_white_thumb_black 0).thumbnail.pixels 0).2.pixels := by
  refine ⟨rfl, rfl, ?_⟩
  decide

/-- C2 amended: construction stores the percentage computed from the
full-image thresholding pass's counts (the thumbnail pass's counts are
discarded at construction); `set_black_point` instead stores the
percentage computed from the thumbnail pass's counts. -/
theorem percentage_sources :
    (∀ (img : DynamicImage) (black_point : Nat),
        (AmoledImageConverter.init img black_point).converted_image_black_pixel_percentage =
          calc_black_pixel_percentage
            (generate_black_image img.to_bgra8.pixels black_point).2.black_pixels
            (generate_black_image img.to_bgra8.pixels black_point).2.pixels)
    ∧ (∀ (c : AmoledImageConverter) (black_point : Nat),
        (c.set_black_point black_point).converted_image_black_pixel_percentage =
          calc_black_pixel_percentage
            (generate_black_image c.thumbnail.pixels black_point).2.black_pixels
            (generate_black_image c.thumbnail.pixels black_point).2.pixels) :=
  ⟨fun _ _ => rfl, fun _ _ => rfl⟩

/-- C5: constructing with black point b, then setting any other black
point and setting b again, reproduces exactly the converted buffer and
converted thumbnail of the initial construction: `set_black_point`
recomputes from the immutable `image` and `thumbnail` fields only. -/
theorem set_black_point_roundtrip (img : DynamicImage) (b b2 : Nat) :
    (((AmoledImageConverter.init img b).set_black_point b2).set_black_point b).converted_image
        = (AmoledImageConverter.init img b).converted_image
    ∧ (((AmoledImageConverter.init img b).set_black_point b2).set_black_point
          b).converted_thumbnail
        = (AmoledImageConverter.init img b).converted_thumbnail :=
  ⟨rfl, rfl⟩

/-- C7: `set_black_point` leaves `image`, `thumbnail`, `width` and `height`
untouched, and mutates `black_point`, the two converted buffers and the
percentage together: the converted buffers become the thresholding pass
over fresh copies of `image` and `thumbnail`, and the percentage comes
from the thumbnail pass's counts. -/
theorem set_black_point_frame (c : AmoledImageConverter) (black_point : Nat) :
    (c.set_black_point black_point).image = c.image
    ∧ (c.set_black_point black_point).thumbnail = c.thumbnail
    ∧ (c.set_black_point black_point).width = c.width
    ∧ (c.set_black_point black_point).height = c.height
    ∧ (c.set_black_point black_point).black_point = black_point
    ∧ (c.set_black_point black_point).converted_image =
        { c.image with pixels := (generate_black_image c.image.pixels black_point).1 }
    ∧ (c.set_black_point black_point).converted_thumbnail =
        { c.thumbnail with pixels := (generate_black_image c.thumbnail.pixels black_point).1 }
    ∧ (c.set_black_point black_point).converted_image_black_pixel_percentage =
        calc_black_pixel_percentage
          (generate_black_image c.thumbnail.pixels black_point).2.black_pixels
          (generate_black_image c.thumbnail.pixels black_point).2.pixels :=
  ⟨rfl, rfl, rfl, rfl, rfl, rfl, rfl, rfl⟩

/-- C6: with both source dimensions at least 256, the per-axis thumbnail
targets `clamp(dim / 2, 256, 1024)` that `new` passes to the codec
downscaler both lie within [256, 1024]. -/
theorem thumbnail_dims_bounded (w h : Nat) (_hw : 256 ≤ w) (_hh : 256 ≤ h) :
    (256 ≤ (spec_thumbnail_dims w h).1 ∧ (spec_thumbnail_dims w h).1 ≤ 1024)
    ∧ (256 ≤ (spec_thumbnail_dims w h).2 ∧ (spec_thumbnail_dims w h).2 ≤ 1024) := by
  refine ⟨⟨?_, ?_⟩, ⟨?_, ?_⟩⟩ <;>
    (simp only [spec_thumbnail_dims, thumbnail_target_width, thumbnail_target_height, clamp,
      THUMBNAIL_MIN_WIDTH, THUMBNAIL_MAX_WIDTH, THUMBNAIL_MIN_HEIGHT, THUMBNAIL_MAX_HEIGHT]
     split_ifs <;> omega)

/-- Witness for C6 at source dimensions 300 by 2000. -/
theorem thumbnail_dims_bounded_witness :
    256 ≤ 300 ∧ 256 ≤ 2000 ∧
      ((256 ≤ (spec_thumbnail_dims 300 2000).1 ∧ (spec_thumbnail_dims 300 2000).1 ≤ 1024)
      ∧ (256 ≤ (spec_thumbnail_dims 300 2000).2 ∧ (spec_thumbnail_dims 300 2000).2 ≤ 1024)) :=
  ⟨by decide, by decide, thumbnail_dims_bounded 300 2000 (by decide) (by decide)⟩

/-- Observer: does a construction result carry the `DecodeError` variant? -/
def carries_decode_error : Except AmoledConversionError AmoledImageConverter → Bool
  | Except.error (AmoledConversionError.DecodeError _) => true
  | _ => false

/-- A reader whose open step succeeded but whose decode step fails. -/
def failing_reader : ImageReader where
  decode := Except.error { code := 0 }

/-- C8 counterexample: when opening succeeds but decoding fails,
`from_path` returns the `ImageError` variant, not `DecodeError`, so
"fails with DecodeError exactly when the codec cannot open or decode"
is false on the decode side. -/
theorem decode_failure_yields_image_error :
    AmoledImageConverter.from_path (Except.ok failing_reader) 0
        = Except.error (AmoledConversionError.ImageError { code := 0 })
    ∧ carries_decode_error (AmoledImageConverter.from_path (Except.ok failing_reader) 0)
        = false :=
  ⟨rfl, rfl⟩

/-- C8 amended: `from_path` fails with `DecodeError` exactly when the open
step fails, a decode failure yields the `ImageError` variant, and
construction is atomic: on success the fully initialized converter record
is returned, otherwise only an error and no converter. -/
theorem from_path_classification (open_result : Except IoError ImageReader)
    (black_point : Nat) :
    (∀ e, open_result = Except.error e →
        AmoledImageConverter.from_path open_result black_point =
          Except.error (AmoledConversionError.DecodeError e))
    ∧ (∀ reader e, open_result = Except.ok reader → reader.decode = Except.error e →
        AmoledImageConverter.from_path open_result black_point =
          Except.error (AmoledConversionError.ImageError e))
    ∧ (∀ reader img, open_result = Except.ok reader → reader.decode = Except.ok img →
        AmoledImageConverter.from_path open_result black_point =
          Except.ok (AmoledImageConverter.init img black_point)) := by
  refine ⟨?_, ?_, ?_⟩
  · intro e he
    subst he
    rfl
  · intro reader e hr hd
    subst hr
    simp [AmoledImageConverter.from_path, hd]
  · intro reader img hr hd
    subst hr
    simp [AmoledImageConverter.from_path, hd, AmoledImageConverter.new]

/-- Witness for C8 amended: a failing open with error code 7 produces
exactly `DecodeError` of that error. -/
theorem from_path_classification_witness :
    AmoledImageConverter.from_path (Except.error { code := 7 }) 3 =
      Except.error (AmoledConversionError.DecodeError { code := 7 }) :=
  (from_path_classification (Except.error { code := 7 }) 3).1 { code := 7 } rfl

/-- Spec-side per-pixel byte reorder: swaps bytes 0 and 2 in each group of
four, turning (b, g, r, a) groups into (r, g, b, a) groups. -/
def swap02 : List Nat → List Nat
  | b :: g :: r :: a :: rest => r :: g :: b :: a :: swap02 rest
  | l => l

theorem swap02_cons (b g r a : Nat) (rest : List Nat) :
    swap02 (b :: g :: r :: a :: rest) = r :: g :: b :: a :: swap02 rest := rfl

theorem rgba_flatMap_eq_swap02 (buf : List Bgra) :
    (buf.flatMap fun x => [x.r, x.g, x.b, x.a]) = swap02 (bgra_raw buf) := by
  induction buf with
  | nil => rfl
  | cons x rest ih =>
    have h1 : bgra_raw (x :: rest) = x.b :: x.g :: x.r :: x.a :: bgra_raw rest := rfl
    have h2 : ((x :: rest).flatMap fun y => [y.r, y.g, y.b, y.a])
        = x.r :: x.g :: x.b :: x.a :: (rest.flatMap fun y => [y.r, y.g, y.b, y.a]) := rfl
    rw [h1, h2, swap02_cons, ih]

theorem flatMap_four_length (buf : List Bgra) (f1 f2 f3 f4 : Bgra → Nat) :
    (buf.flatMap fun x => [f1 x, f2 x, f3 x, f4 x]).length = 4 * buf.length := by
  induction buf with
  | nil => rfl
  | cons x rest ih =>
    have h2 : ((x :: rest).flatMap fun y => [f1 y, f2 y, f3 y, f4 y])
        = f1 x :: f2 x :: f3 x :: f4 x :: (rest.flatMap fun y => [f1 y, f2 y, f3 y, f4 y]) := rfl
    rw [h2]
    simp only [List.length_cons, ih]
    omega

/-- C9: for every converter state, the export buffer is the raw bytes of
the full-resolution converted buffer with each pixel's bytes reordered
from the internal (blue, green, red, alpha) layout to
(red, green, blue, alpha), with four bytes per pixel. -/
theorem export_reorders_channels (c : AmoledImageConverter) :
    c.as_rgba_image = swap02 (bgra_raw c.converted_image.pixels)
    ∧ c.as_rgba_image.length = 4 * c.converted_image.pixels.length := by
  constructor
  · exact rgba_flatMap_eq_swap02 c.converted_image.pixels
  · exact flatMap_four_length c.converted_image.pixels _ _ _ _

end Amoled
